import Mathlib

set_option maxRecDepth 100000

/-! Verification development for the legacy-transaction translation pipeline
of iotex-antenna-lite (src/iotx.ts, Iotx.sendRawTransaction).

Bytes are modelled as List Nat with big-endian unsigned interpretation
given by beVal.  The RLP tuple encoding is modelled for flat tuples of
byte strings, which is the data domain of this pipeline (spec section 3:
every RawTransaction field is a byte string).  External primitives that
are not part of this repository — the keccak hash, the secp256k1 point
recovery core, the bech32 address encoder and the RPC transport — are
parameters of the embedding, collected in the Env structure, while the
deterministic wrapper logic of the ethereumjs-util helpers used by the
source (toBuffer, unpadBuffer, setLength, bufferToInt, the ecrecover
recovery-id guard) is embedded concretely from its documented semantics. -/

/-- Big-endian unsigned value of a byte string, as bufferToInt and
BigNumber with a hex prefix interpret a non-empty buffer in the source. -/
def beVal (l : List Nat) : Nat := l.foldl (fun a b => 256 * a + b) 0

/-- Fuel-driven big-endian encoding of a natural number; the fuel makes the
recursion structural so that the kernel can evaluate it. -/
def beBytesFuel : Nat → Nat → List Nat
  | _, 0 => []
  | 0, _ + 1 => []
  | f + 1, n + 1 => beBytesFuel f ((n + 1) / 256) ++ [(n + 1) % 256]

/-- Minimal big-endian encoding of a natural number: no leading zero bytes,
and 0 encodes as the empty byte string. -/
def beBytes (n : Nat) : List Nat := beBytesFuel n n

/-- Modelled from the documented semantics of ethereumjs-util toBuffer on a
number argument (intToBuffer): minimal big-endian bytes, except that 0
becomes the single byte 0x00 (intToHex 0 pads to the hex string 00). -/
def toBufferNat (n : Nat) : List Nat := if n = 0 then [0] else beBytes n

/-- Modelled from ethereumjs-util unpadBuffer: strip leading zero bytes. -/
def unpadBuffer (l : List Nat) : List Nat := l.dropWhile (fun b => b = 0)

/-- Modelled from ethereumjs-util setLength (setLengthLeft): left-pad with
zero bytes to the requested length, or keep only the trailing bytes when
the input is longer. -/
def setLengthLeft (msg : List Nat) (len : Nat) : List Nat :=
  if msg.length ≤ len then List.replicate (len - msg.length) 0 ++ msg
  else msg.drop (msg.length - len)

/-- RLP encoding of a single byte-string item (the rlp package used by the
source): a single byte below 0x80 is its own encoding; otherwise a length
header is prepended. -/
def rlpEncodeBytes (x : List Nat) : List Nat :=
  if x.length = 1 ∧ x.getD 0 0 < 128 then x
  else if x.length < 56 then (128 + x.length) :: x
  else (183 + (beBytes x.length).length) :: (beBytes x.length ++ x)

/-- RLP encoding of a flat list of byte-string items. -/
def rlpEncodeList (items : List (List Nat)) : List Nat :=
  let payload := (items.map rlpEncodeBytes).flatten
  if payload.length < 56 then (192 + payload.length) :: payload
  else (247 + (beBytes payload.length).length) :: (beBytes payload.length ++ payload)

/-- Parse one byte-string item from the front of an RLP payload, returning
the item and the remaining bytes.  An item with a list header yields none:
this is a modelling boundary, not program behaviour — the rlp package does
decode nested lists, and the theorems below never read a none caused by a
nested element as a failure of the program, which can accept such tuples. -/
def parseItem : List Nat → Option (List Nat × List Nat)
  | [] => none
  | b :: rest =>
    if b < 128 then some ([b], rest)
    else if b < 184 then
      if rest.length < b - 128 then none
      else some (rest.take (b - 128), rest.drop (b - 128))
    else if b < 192 then
      if rest.length < b - 183 then none
      else
        let lenBytes := rest.take (b - 183)
        let rest2 := rest.drop (b - 183)
        if rest2.length < beVal lenBytes then none
        else some (rest2.take (beVal lenBytes), rest2.drop (beVal lenBytes))
    else none

/-- Parse a sequence of byte-string items, consuming the payload exactly.
The fuel argument bounds the number of items and makes the recursion
structural; any fuel at least the payload length is enough. -/
def parseItems : Nat → List Nat → Option (List (List Nat))
  | 0, l => if l = [] then some [] else none
  | f + 1, l =>
    if l = [] then some []
    else
      match parseItem l with
      | none => none
      | some (item, rest) => (parseItems f rest).map (fun xs => item :: xs)

/-- Modelled from rlp.decode on the input of sendRawTransaction, restricted
to the flat byte-string domain of spec section 3: the input must be an RLP
list whose payload is consumed exactly (the rlp package rejects a nonzero
remainder); the items are returned in order.  A none is faithful for a
non-list input, a truncated input, or any failure of the package itself,
but an input whose elements include nested lists also yields none here
even though the package returns the nested structure; theorems about
rejected inputs therefore restrict themselves to the faithful cases. -/
def rlpDecode (input : List Nat) : Option (List (List Nat)) :=
  match input with
  | [] => none
  | b :: rest =>
    if b < 192 then none
    else if b < 248 then
      if rest.length = b - 192 then parseItems (b - 192) rest else none
    else
      if rest.length < b - 247 then none
      else
        let lenBytes := rest.take (b - 247)
        let rest2 := rest.drop (b - 247)
        if rest2.length = beVal lenBytes then parseItems (beVal lenBytes) rest2 else none

/-- Modelled from bignumber.js: building a BigNumber from the hex dump of a
byte string prefixed with 0x.  An empty buffer gives the string 0x, which
bignumber.js parses as NaN; a non-empty buffer gives its big-endian value. -/
def bigNumberOfBytes (bs : List Nat) : Option Nat :=
  if bs = [] then none else some (beVal bs)

/-- Modelled from bignumber.js toString: decimal digits for a number, the
literal string NaN otherwise. -/
def bigNumberStr (o : Option Nat) : String :=
  match o with
  | none => "NaN"
  | some n => toString n

/-- Error taxonomy of the translation, following spec section 7.  The
source throws plain Error values; the constructor records which stage
failed and, for classification, the address whose metadata was missing. -/
inductive TranslateError where
  | decodeError : TranslateError
  | recoveryError : TranslateError
  | classificationError : String → TranslateError
  | transportError : TranslateError
deriving Repr, DecidableEq

structure TransferPayload where
  amount : String
  recipient : String
  payload : List Nat
deriving Repr, DecidableEq

structure ExecutionPayload where
  amount : String
  contract : String
  data : List Nat
deriving Repr, DecidableEq

/-- The action core as assembled at lines 126 to 155 of src/iotx.ts.  The
source mutates a plain object, attaching transfer or execution as an
optional field; the embedding keeps both optional fields so that the
mutual-exclusion invariant is a provable property, not a typing artifact. -/
structure ActionCore where
  version : Nat
  nonce : String
  gasLimit : String
  gasPrice : String
  chainID : Nat
  transfer : Option TransferPayload
  execution : Option ExecutionPayload
deriving Repr, DecidableEq

structure ActionEnvelope where
  core : ActionCore
  senderPubKey : List Nat
  signature : List Nat
  encoding : Nat
deriving Repr, DecidableEq

structure SendActionReq where
  action : ActionEnvelope
deriving Repr, DecidableEq

structure RawTransactionRequest where
  data : List Nat
  chainID : Nat
deriving Repr, DecidableEq

structure AccountMeta where
  isContract : Bool
deriving Repr, DecidableEq

/-- Observable external calls made by one translation. -/
inductive Event where
  | lookup : String → Event
  | send : SendActionReq → Event
deriving Repr, DecidableEq

/-- External collaborators of the pipeline.  keccak models the hash used by
keccakFromHexString; recoverPoint models the secp256k1 recovery core
called by ecrecover on (digest, recovery id, padded r, padded s), returning
the 64-byte uncompressed point body or none on failure; fromBytes models
the bech32 address encoder of the repository (modelled from the spec: a
non-empty recipient field must decode to a valid address, failure aborts
the translation); getAccount models the account lookup, with none standing
for a response without accountMeta; sendAction models the submission. -/
structure Env where
  keccak : List Nat → List Nat
  recoverPoint : List Nat → Nat → List Nat → List Nat → Option (List Nat)
  fromBytes : List Nat → Option String
  getAccount : String → Option AccountMeta
  sendAction : SendActionReq → Except TranslateError String

/-- Lines 93 to 101 of src/iotx.ts: rlp.decode the request data and read the
positional fields.  The source never checks the arity; it reads indices 0
through 8, so fewer than 9 items makes the field accesses throw (modelled
as decodeError) while extra items are silently ignored.  A non-empty
recipient field is passed through fromBytes. -/
def decodeTx (fromBytesFn : List Nat → Option String) (data : List Nat) :
    Except TranslateError (List (List Nat) × String) :=
  match rlpDecode data with
  | none => Except.error TranslateError.decodeError
  | some tx =>
    if 9 ≤ tx.length then
      if tx.getD 3 [] = [] then Except.ok (tx, "")
      else
        match fromBytesFn (tx.getD 3 []) with
        | none => Except.error TranslateError.decodeError
        | some a => Except.ok (tx, a)
    else Except.error TranslateError.decodeError

/-- Line 102 of src/iotx.ts: v minus (chainID times 2 plus 8), on the value
decoded from the seventh tuple field. -/
def vNormalized (t6 : List Nat) (c : Nat) : Int := (beVal t6 : Int) - (2 * c + 8)

/-- Modelled from ethereumjs-util calculateSigRecovery as invoked at line
111: with a truthy chainId the recovery id is v minus (2 chainId + 35),
with a falsy chainId (0) it is v minus 27. -/
def sigRecovery (t6 : List Nat) (c : Nat) : Int :=
  if c = 0 then (beVal t6 : Int) - 27 else (beVal t6 : Int) - (2 * c + 35)

/-- Lines 104 to 105 of src/iotx.ts: the first six decoded fields followed
by toBuffer(chainID) and two copies of unpadBuffer(toBuffer(0)), the empty
byte string. -/
def resignFields (tx : List (List Nat)) (c : Nat) : List (List Nat) :=
  tx.take 6 ++ [toBufferNat c, unpadBuffer (toBufferNat 0), unpadBuffer (toBufferNat 0)]

/-- Lines 104 to 113 of src/iotx.ts: re-encode the substituted tuple, hash
it, run ecrecover on the raw v together with chainID (modelled recovery-id
guard of ethereumjs-util, then the abstract point recovery), and assemble
the compact public key 0x04 prefix plus point and the 65-byte signature
r padded to 32, s padded to 32, and the byte of the line-102 v value. -/
def recoverStage (keccakFn : List Nat → List Nat)
    (recoverPointFn : List Nat → Nat → List Nat → List Nat → Option (List Nat))
    (c : Nat) (tx : List (List Nat)) :
    Except TranslateError (List Nat × List Nat) :=
  let digest := keccakFn (rlpEncodeList (resignFields tx c))
  if sigRecovery (tx.getD 6 []) c = 0 ∨ sigRecovery (tx.getD 6 []) c = 1 then
    match recoverPointFn digest (sigRecovery (tx.getD 6 []) c).toNat
        (setLengthLeft (tx.getD 7 []) 32) (setLengthLeft (tx.getD 8 []) 32) with
    | none => Except.error TranslateError.recoveryError
    | some pk =>
      Except.ok (4 :: pk,
        setLengthLeft (tx.getD 7 []) 32 ++ setLengthLeft (tx.getD 8 []) 32 ++
          toBufferNat (vNormalized (tx.getD 6 []) c).toNat)
  else Except.error TranslateError.recoveryError

/-- Lines 126 to 155 of src/iotx.ts: assemble the sendAction request.  The
outer core always carries version 0, chainID 0, encoding 1, and the string
renderings of nonce, gasLimit, gasPrice; exactly one of transfer or
execution is attached depending on the isContract flag. -/
def buildSendActionReq (nonceB gasPriceB gasLimitB valueB : List Nat) (recip : String)
    (dataB : List Nat) (compactPK sig : List Nat) (isContract : Bool) : SendActionReq :=
  let baseCore : ActionCore :=
    { version := 0
      nonce := bigNumberStr (bigNumberOfBytes nonceB)
      gasLimit := bigNumberStr (bigNumberOfBytes gasLimitB)
      gasPrice := bigNumberStr (bigNumberOfBytes gasPriceB)
      chainID := 0
      transfer := none
      execution := none }
  let execPayload : ExecutionPayload :=
    { amount := bigNumberStr (bigNumberOfBytes valueB)
      contract := recip
      data := dataB }
  let transPayload : TransferPayload :=
    { amount := bigNumberStr (bigNumberOfBytes valueB)
      recipient := recip
      payload := dataB }
  let core :=
    if isContract then { baseCore with execution := some execPayload }
    else { baseCore with transfer := some transPayload }
  { action := { core := core, senderPubKey := compactPK, signature := sig, encoding := 1 } }

/-- Iotx.sendRawTransaction, lines 91 to 158 of src/iotx.ts: decode, recover,
classify the recipient when one is present (isContract starts true and is
only overwritten after a successful lookup), assemble the request and hand
it to sendAction.  The second component records the external calls in
order. -/
def sendRawTransaction (E : Env) (req : RawTransactionRequest) :
    Except TranslateError String × List Event :=
  match decodeTx E.fromBytes req.data with
  | Except.error e => (Except.error e, [])
  | Except.ok (tx, recip) =>
    match recoverStage E.keccak E.recoverPoint req.chainID tx with
    | Except.error e => (Except.error e, [])
    | Except.ok (compactPK, sig) =>
      if recip = "" then
        let sreq := buildSendActionReq (tx.getD 0 []) (tx.getD 1 []) (tx.getD 2 [])
          (tx.getD 4 []) recip (tx.getD 5 []) compactPK sig true
        (E.sendAction sreq, [Event.send sreq])
      else
        match E.getAccount recip with
        | none => (Except.error (TranslateError.classificationError recip), [Event.lookup recip])
        | some meta =>
          let sreq := buildSendActionReq (tx.getD 0 []) (tx.getD 1 []) (tx.getD 2 [])
            (tx.getD 4 []) recip (tx.getD 5 []) compactPK sig meta.isContract
          (E.sendAction sreq, [Event.lookup recip, Event.send sreq])

/-- The submission requests recorded in a trace, in order. -/
def sentEnvelopes (evs : List Event) : List SendActionReq :=
  evs.filterMap fun e =>
    match e with
    | Event.send r => some r
    | _ => none

/-- Number of classification lookups recorded in a trace. -/
def lookupCount (evs : List Event) : Nat :=
  (evs.filter fun e =>
    match e with
    | Event.lookup _ => true
    | _ => false).length

/-- Transfer payloads of the submitted envelopes, in order. -/
def sentTransfers (evs : List Event) : List (Option TransferPayload) :=
  (sentEnvelopes evs).map fun r => r.action.core.transfer

/-- Signatures of the submitted envelopes, in order. -/
def sentSignatures (evs : List Event) : List (List Nat) :=
  (sentEnvelopes evs).map fun r => r.action.signature

deriving instance DecidableEq for Except

/-! Concrete instantiations of the external collaborators, used to evaluate
the pipeline on explicit inputs.  The hash is instantiated with the
identity and the point recovery with constant functions; the theorems
below that quantify over Env do not depend on these choices. -/

/-- An environment in which every external call succeeds and the recipient
classifies as a plain account. -/
def exEnvOk : Env :=
  { keccak := fun l => l
    recoverPoint := fun _ _ _ _ => some [9]
    fromBytes := fun bs => if bs = [] then none else some "io1rcpt"
    getAccount := fun _ => some { isContract := false }
    sendAction := fun _ => Except.ok "h" }

/-- An environment whose account lookup answers without account metadata. -/
def exEnvNoMeta : Env :=
  { exEnvOk with getAccount := fun _ => none }

/-- An environment whose point recovery succeeds only for recovery id 0,
as secp256k1 recovery does for a signature made with recovery id 0. -/
def exEnvRid0 : Env :=
  { exEnvOk with recoverPoint := fun _ rid _ _ => if rid = 0 then some [9] else none }

/-- A 9-field tuple with a non-empty recipient and an empty (canonically
zero) value field; v is 37, the EIP-155 value for chain id 1, recovery 0. -/
def exTxA : List (List Nat) := [[1], [2], [3], [7], [], [6], [37], [2], [3]]

/-- A 9-field tuple with an empty recipient field (contract creation). -/
def exTxB : List (List Nat) := [[1], [2], [3], [], [5], [6], [37], [2], [3]]

/-- As exTxB but with v equal to 38 (chain id 1, recovery 1). -/
def exTxC : List (List Nat) := [[1], [2], [3], [], [5], [6], [38], [2], [3]]

def exReqA : RawTransactionRequest := { data := rlpEncodeList exTxA, chainID := 1 }

def exReqB : RawTransactionRequest := { data := rlpEncodeList exTxB, chainID := 1 }

def exReqC : RawTransactionRequest := { data := rlpEncodeList exTxC, chainID := 1 }

/-- The request submitted by the pipeline for exEnvOk and exReqA, spelled
out for use in concrete statements. -/
def exSentA : SendActionReq :=
  { action :=
    { core :=
      { version := 0
        nonce := "1"
        gasLimit := "3"
        gasPrice := "2"
        chainID := 0
        transfer := some { amount := "NaN", recipient := "io1rcpt", payload := [6] }
        execution := none }
      senderPubKey := [4, 9]
      signature := setLengthLeft [2] 32 ++ setLengthLeft [3] 32 ++ [27]
      encoding := 1 } }

/-- As exTxB but with v equal to 40, which is not a chain-id-1 recovery
value. -/
def exTxD : List (List Nat) := [[1], [2], [3], [], [5], [6], [40], [2], [3]]

def exReqD : RawTransactionRequest := { data := rlpEncodeList exTxD, chainID := 1 }

theorem beVal_append_single (l : List Nat) (b : Nat) :
    beVal (l ++ [b]) = 256 * beVal l + b := by
  simp [beVal, List.foldl_append]

theorem beBytesFuel_irrel (f : Nat) : ∀ g n, n ≤ f → n ≤ g → beBytesFuel f n = beBytesFuel g n := by
  induction f with
  | zero =>
    intro g n hf _
    interval_cases n
    cases g <;> simp [beBytesFuel]
  | succ f ih =>
    intro g n hf hg
    cases n with
    | zero => cases g <;> simp [beBytesFuel]
    | succ m =>
      cases g with
      | zero => omega
      | succ g' =>
        have hd : (m + 1) / 256 ≤ m := by omega
        simp only [beBytesFuel]
        rw [ih g' ((m + 1) / 256) (by omega) (by omega)]

theorem beBytes_succ (m : Nat) : beBytes (m + 1) = beBytes ((m + 1) / 256) ++ [(m + 1) % 256] := by
  have hd : (m + 1) / 256 ≤ m := by omega
  simp only [beBytes, beBytesFuel]
  rw [beBytesFuel_irrel m ((m + 1) / 256) ((m + 1) / 256) hd le_rfl]

theorem beVal_beBytes (n : Nat) : beVal (beBytes n) = n := by
  induction n using Nat.strong_induction_on with
  | _ n ih =>
    cases n with
    | zero => simp [beBytes, beBytesFuel, beVal]
    | succ m =>
      rw [beBytes_succ, beVal_append_single, ih ((m + 1) / 256) (by omega)]
      omega

theorem beBytes_length_le (k : Nat) : ∀ n, n < 256 ^ k → (beBytes n).length ≤ k := by
  induction k with
  | zero =>
    intro n hn
    interval_cases n
    simp [beBytes, beBytesFuel]
  | succ k ih =>
    intro n hn
    cases n with
    | zero => simp [beBytes, beBytesFuel]
    | succ m =>
      rw [beBytes_succ]
      have hlt : (m + 1) / 256 < 256 ^ k := by
        have h1 : m + 1 < 256 ^ k * 256 := by
          rw [← pow_succ]
          exact hn
        exact Nat.div_lt_of_lt_mul (by omega)
      have := ih ((m + 1) / 256) hlt
      simp [List.length_append]
      omega

theorem beBytes_ne_nil (n : Nat) (hn : n ≠ 0) : beBytes n ≠ [] := by
  cases n with
  | zero => omega
  | succ m =>
    rw [beBytes_succ]
    simp

theorem beVal_toBufferNat (c : Nat) : beVal (toBufferNat c) = c := by
  by_cases hc : c = 0
  · subst hc
    simp [toBufferNat, beVal]
  · simp [toBufferNat, hc, beVal_beBytes]

theorem take_len_append (l r : List Nat) : (l ++ r).take l.length = l := by
  induction l with
  | nil => simp
  | cons a t ih => simp [ih]

theorem drop_len_append (l r : List Nat) : (l ++ r).drop l.length = r := by
  induction l with
  | nil => simp
  | cons a t ih => simp [ih]

theorem rlpEncodeBytes_ne_nil (x : List Nat) : rlpEncodeBytes x ≠ [] := by
  rw [rlpEncodeBytes]
  by_cases h1 : x.length = 1 ∧ x.getD 0 0 < 128
  · rw [if_pos h1]
    intro hx
    rw [hx] at h1
    simp at h1
  · rw [if_neg h1]
    by_cases h2 : x.length < 56
    · simp [h2]
    · simp [h2]

theorem parseItem_encode (x rest : List Nat) (hx : x.length < 256 ^ 8) :
    parseItem (rlpEncodeBytes x ++ rest) = some (x, rest) := by
  rw [rlpEncodeBytes]
  by_cases h1 : x.length = 1 ∧ x.getD 0 0 < 128
  · obtain ⟨hlen, hb⟩ := h1
    obtain ⟨b, rfl⟩ := List.length_eq_one.mp hlen
    simp only [List.getD_cons_zero] at hb
    rw [if_pos ⟨by simp, by simpa using hb⟩]
    simp [parseItem, hb]
  · rw [if_neg h1]
    by_cases h2 : x.length < 56
    · rw [if_pos h2]
      simp only [List.cons_append, parseItem]
      rw [if_neg (by omega), if_pos (by omega)]
      have h128 : 128 + x.length - 128 = x.length := by omega
      rw [h128]
      rw [if_neg (by rw [List.length_append]; omega)]
      rw [take_len_append, drop_len_append]
    · rw [if_neg h2]
      have hBne : beBytes x.length ≠ [] := beBytes_ne_nil _ (by omega)
      have hll1 : 1 ≤ (beBytes x.length).length := List.length_pos.mpr hBne
      have hll8 : (beBytes x.length).length ≤ 8 := beBytes_length_le 8 _ hx
      simp only [List.cons_append, List.append_assoc, parseItem]
      rw [if_neg (by omega), if_neg (by omega), if_pos (by omega)]
      have h183 : 183 + (beBytes x.length).length - 183 = (beBytes x.length).length := by
        omega
      rw [h183]
      rw [if_neg (by rw [List.length_append, List.length_append]; omega)]
      rw [take_len_append, drop_len_append, beVal_beBytes]
      rw [if_neg (by rw [List.length_append]; omega)]
      rw [take_len_append, drop_len_append]

theorem parseItems_encode (items : List (List Nat))
    (hx : ∀ x ∈ items, x.length < 256 ^ 8) :
    ∀ fuel, items.length ≤ fuel →
      parseItems fuel ((items.map rlpEncodeBytes).flatten) = some items := by
  induction items with
  | nil =>
    intro fuel _
    cases fuel <;> simp [parseItems]
  | cons x xs ih =>
    intro fuel hfuel
    cases fuel with
    | zero => simp at hfuel
    | succ f =>
      have hxx : x.length < 256 ^ 8 := hx x (by simp)
      have hne : rlpEncodeBytes x ++ (xs.map rlpEncodeBytes).flatten ≠ [] := by
        intro h
        exact rlpEncodeBytes_ne_nil x (List.append_eq_nil.mp h).1
      simp only [List.map_cons, List.flatten_cons, parseItems]
      rw [if_neg hne]
      rw [parseItem_encode x _ hxx]
      show Option.map (fun ys => x :: ys) (parseItems f ((xs.map rlpEncodeBytes).flatten)) =
        some (x :: xs)
      rw [ih (fun y hy => hx y (by simp [hy])) f (by simpa using hfuel)]
      rfl

theorem items_le_flatten (items : List (List Nat)) :
    items.length ≤ ((items.map rlpEncodeBytes).flatten).length := by
  induction items with
  | nil => simp
  | cons x xs ih =>
    simp only [List.map_cons, List.flatten_cons, List.length_append, List.length_cons]
    have := List.length_pos.mpr (rlpEncodeBytes_ne_nil x)
    omega

/-- Round trip of the tuple-encoding scheme: decoding the encoding of any
flat tuple of byte strings (within the length bounds of the RLP header
format) gives back exactly that tuple. -/
theorem rlpDecode_encodeList (items : List (List Nat))
    (hx : ∀ x ∈ items, x.length < 256 ^ 8)
    (hpay : ((items.map rlpEncodeBytes).flatten).length < 256 ^ 8) :
    rlpDecode (rlpEncodeList items) = some items := by
  simp only [rlpEncodeList]
  by_cases hshort : ((items.map rlpEncodeBytes).flatten).length < 56
  · rw [if_pos hshort]
    simp only [rlpDecode]
    rw [if_neg (by omega), if_pos (by omega)]
    have h192 : 192 + ((items.map rlpEncodeBytes).flatten).length - 192 =
        ((items.map rlpEncodeBytes).flatten).length := by omega
    rw [h192, if_pos rfl]
    exact parseItems_encode items hx _ (items_le_flatten items)
  · rw [if_neg hshort]
    have hBne : beBytes ((items.map rlpEncodeBytes).flatten).length ≠ [] :=
      beBytes_ne_nil _ (by omega)
    have hll1 : 1 ≤ (beBytes ((items.map rlpEncodeBytes).flatten).length).length :=
      List.length_pos.mpr hBne
    have hll8 : (beBytes ((items.map rlpEncodeBytes).flatten).length).length ≤ 8 :=
      beBytes_length_le 8 _ hpay
    simp only [rlpDecode]
    rw [if_neg (by omega), if_neg (by omega)]
    have h247 : 247 + (beBytes ((items.map rlpEncodeBytes).flatten).length).length - 247 =
        (beBytes ((items.map rlpEncodeBytes).flatten).length).length := by omega
    rw [h247]
    rw [if_neg (by rw [List.length_append]; omega)]
    rw [take_len_append, drop_len_append, beVal_beBytes]
    rw [if_pos rfl]
    exact parseItems_encode items hx _ (items_le_flatten items)

theorem setLengthLeft_length (m : List Nat) (n : Nat) : (setLengthLeft m n).length = n := by
  rw [setLengthLeft]
  by_cases h : m.length ≤ n
  · rw [if_pos h]
    rw [List.length_append, List.length_replicate]
    omega
  · rw [if_neg h]
    rw [List.length_drop]
    omega

/-- C2: if the classification lookup happens and returns an account without
account metadata, the whole translation fails with the classification
error for that address and no envelope is ever submitted. -/
theorem C2_classification_abort (E : Env) (req : RawTransactionRequest) (addr : String)
    (hl : Event.lookup addr ∈ (sendRawTransaction E req).2)
    (hm : E.getAccount addr = none) :
    (sendRawTransaction E req).1 = Except.error (TranslateError.classificationError addr) ∧
    sentEnvelopes (sendRawTransaction E req).2 = [] := by
  cases hd : decodeTx E.fromBytes req.data with
  | error e =>
    simp only [sendRawTransaction, hd] at hl
    simp at hl
  | ok p =>
    obtain ⟨tx, recip⟩ := p
    cases hr : recoverStage E.keccak E.recoverPoint req.chainID tx with
    | error e =>
      simp only [sendRawTransaction, hd, hr] at hl
      simp at hl
    | ok pr =>
      obtain ⟨pk, sig⟩ := pr
      by_cases hto : recip = ""
      · simp only [sendRawTransaction, hd, hr, hto] at hl
        simp at hl
      · cases ha : E.getAccount recip with
        | none =>
          simp only [sendRawTransaction, hd, hr, if_neg hto, ha] at hl ⊢
          simp only [List.mem_singleton, Event.lookup.injEq] at hl
          subst hl
          exact ⟨rfl, by simp [sentEnvelopes]⟩
        | some m =>
          simp only [sendRawTransaction, hd, hr, if_neg hto, ha] at hl
          simp only [List.mem_cons, List.mem_singleton] at hl
          rcases hl with h | h
          · rw [Event.lookup.injEq] at h
            subst h
            rw [hm] at ha
            cases ha
          · simp at h

/-- Witness for C2 at a concrete input: a tuple with a recipient, in an
environment whose lookup has no account metadata. -/
theorem C2_classification_abort_witness :
    (sendRawTransaction exEnvNoMeta exReqA).1 =
      Except.error (TranslateError.classificationError "io1rcpt") ∧
    sentEnvelopes (sendRawTransaction exEnvNoMeta exReqA).2 = [] :=
  C2_classification_abort exEnvNoMeta exReqA "io1rcpt" (by decide) (by decide)

/-- C3: every submitted envelope carries the constant 0 in core.chainID,
while the chain field substituted into the re-signing payload is the
encoding of the requested target chain id and decodes back to it exactly;
the two fields never read from the same source value. -/
theorem C3_chainID_divergence (E : Env) (req : RawTransactionRequest)
    (tx : List (List Nat)) (recip : String) (env : SendActionReq)
    (hdec : decodeTx E.fromBytes req.data = Except.ok (tx, recip))
    (henv : env ∈ sentEnvelopes (sendRawTransaction E req).2) :
    env.action.core.chainID = 0 ∧
    resignFields tx req.chainID = tx.take 6 ++ [toBufferNat req.chainID, [], []] ∧
    beVal (toBufferNat req.chainID) = req.chainID := by
  have hz : unpadBuffer (toBufferNat 0) = [] := by decide
  refine ⟨?_, by rw [resignFields, hz], beVal_toBufferNat req.chainID⟩
  cases hr : recoverStage E.keccak E.recoverPoint req.chainID tx with
  | error e =>
    simp only [sendRawTransaction, hdec, hr] at henv
    simp [sentEnvelopes] at henv
  | ok pr =>
    obtain ⟨pk, sig⟩ := pr
    by_cases hto : recip = ""
    · simp only [sendRawTransaction, hdec, hr, hto] at henv
      simp [sentEnvelopes] at henv
      subst henv
      simp [buildSendActionReq]
    · cases ha : E.getAccount recip with
      | none =>
        simp only [sendRawTransaction, hdec, hr, if_neg hto, ha] at henv
        simp [sentEnvelopes] at henv
      | some m =>
        simp only [sendRawTransaction, hdec, hr, if_neg hto, ha] at henv
        simp [sentEnvelopes] at henv
        subst henv
        cases m.isContract <;> simp [buildSendActionReq]

/-- Witness for C3 at a concrete input. -/
theorem C3_chainID_divergence_witness :
    exSentA.action.core.chainID = 0 ∧
    resignFields exTxA exReqA.chainID =
      exTxA.take 6 ++ [toBufferNat exReqA.chainID, [], []] ∧
    beVal (toBufferNat exReqA.chainID) = exReqA.chainID :=
  C3_chainID_divergence exEnvOk exReqA exTxA "io1rcpt" exSentA (by decide) (by decide)

/-- C1, amended: every submitted envelope carries exactly one payload
variant — never both, never neither — chosen by the recipient
classification: an Execution payload when the decoded recipient is empty
or the lookup classifies it as a contract, and a Transfer payload when a
recipient is present and classifies as a plain account.  The amount field
is the bignumber rendering of the decoded value bytes, which is the
decimal string for a non-empty value field and the string NaN for the
empty (canonical zero) value field. -/
theorem C1_payload_variant (E : Env) (req : RawTransactionRequest)
    (tx : List (List Nat)) (recip : String) (env : SendActionReq)
    (hdec : decodeTx E.fromBytes req.data = Except.ok (tx, recip))
    (henv : env ∈ sentEnvelopes (sendRawTransaction E req).2) :
    ((env.action.core.transfer.isSome || env.action.core.execution.isSome) = true) ∧
    ((env.action.core.transfer.isSome && env.action.core.execution.isSome) = false) ∧
    ((recip = "" ∨ E.getAccount recip = some { isContract := true }) →
      env.action.core.execution = some
        { amount := bigNumberStr (bigNumberOfBytes (tx.getD 4 []))
          contract := recip
          data := tx.getD 5 [] } ∧
      env.action.core.transfer = none) ∧
    ((recip ≠ "" ∧ E.getAccount recip = some { isContract := false }) →
      env.action.core.transfer = some
        { amount := bigNumberStr (bigNumberOfBytes (tx.getD 4 []))
          recipient := recip
          payload := tx.getD 5 [] } ∧
      env.action.core.execution = none) := by
  cases hr : recoverStage E.keccak E.recoverPoint req.chainID tx with
  | error e =>
    simp only [sendRawTransaction, hdec, hr] at henv
    simp [sentEnvelopes] at henv
  | ok pr =>
    obtain ⟨pk, sig⟩ := pr
    by_cases hto : recip = ""
    · subst hto
      simp only [sendRawTransaction, hdec, hr] at henv
      simp [sentEnvelopes] at henv
      subst henv
      refine ⟨?_, ?_, ?_, ?_⟩ <;> simp [buildSendActionReq]
    · cases ha : E.getAccount recip with
      | none =>
        simp only [sendRawTransaction, hdec, hr, if_neg hto, ha] at henv
        simp [sentEnvelopes] at henv
      | some m =>
        simp only [sendRawTransaction, hdec, hr, if_neg hto, ha] at henv
        simp [sentEnvelopes] at henv
        subst henv
        obtain ⟨mc⟩ := m
        cases mc <;> refine ⟨?_, ?_, ?_, ?_⟩ <;>
          simp [buildSendActionReq, hto, ha]

/-- C1 counterexample to the claim as stated: for the zero value (whose
canonical tuple encoding is the empty byte string) the submitted Transfer
amount is the string NaN, not the decimal rendering 0 of the decoded
value, because the source builds a BigNumber from the string 0x. -/
theorem C1_counterexample :
    (sendRawTransaction exEnvOk exReqA).1 = Except.ok "h" ∧
    beVal (exTxA.getD 4 []) = 0 ∧
    bigNumberStr (some (beVal (exTxA.getD 4 []))) = "0" ∧
    sentTransfers (sendRawTransaction exEnvOk exReqA).2 =
      [some { amount := "NaN", recipient := "io1rcpt", payload := [6] }] ∧
    ("NaN" : String) ≠ "0" := by
  refine ⟨by decide, by decide, by decide, by decide, by decide⟩

/-- Witness for C1 at a concrete input with a plain-account recipient. -/
theorem C1_payload_variant_witness :
    ((exSentA.action.core.transfer.isSome || exSentA.action.core.execution.isSome) = true) ∧
    ((exSentA.action.core.transfer.isSome && exSentA.action.core.execution.isSome) = false) ∧
    (("io1rcpt" = "" ∨ exEnvOk.getAccount "io1rcpt" = some { isContract := true }) →
      exSentA.action.core.execution = some
        { amount := bigNumberStr (bigNumberOfBytes (exTxA.getD 4 []))
          contract := "io1rcpt"
          data := exTxA.getD 5 [] } ∧
      exSentA.action.core.transfer = none) ∧
    (("io1rcpt" ≠ "" ∧ exEnvOk.getAccount "io1rcpt" = some { isContract := false }) →
      exSentA.action.core.transfer = some
        { amount := bigNumberStr (bigNumberOfBytes (exTxA.getD 4 []))
          recipient := "io1rcpt"
          payload := exTxA.getD 5 [] } ∧
      exSentA.action.core.execution = none) :=
  C1_payload_variant exEnvOk exReqA exTxA "io1rcpt" exSentA (by decide) (by decide)

/-- C4, amended: the translation computes the line-102 value
v minus (2 chainID + 8), but the range check that aborts the translation
is the one inside ecrecover, which (for a nonzero chain id) requires
v minus (2 chainID + 35) to be 0 or 1 — equivalently the line-102 value
must be 27 or 28; outside that range the translation fails with the
recovery error before any lookup or submission. -/
theorem C4_recovery_guard (E : Env) (req : RawTransactionRequest)
    (tx : List (List Nat)) (recip : String)
    (hdec : decodeTx E.fromBytes req.data = Except.ok (tx, recip))
    (hc : req.chainID ≠ 0)
    (h27 : vNormalized (tx.getD 6 []) req.chainID ≠ 27)
    (h28 : vNormalized (tx.getD 6 []) req.chainID ≠ 28) :
    (sendRawTransaction E req).1 = Except.error TranslateError.recoveryError ∧
    (sendRawTransaction E req).2 = [] := by
  have hguard : ¬ (sigRecovery (tx.getD 6 []) req.chainID = 0 ∨
      sigRecovery (tx.getD 6 []) req.chainID = 1) := by
    simp only [sigRecovery, vNormalized, if_neg hc] at h27 h28 ⊢
    omega
  have hr : recoverStage E.keccak E.recoverPoint req.chainID tx =
      Except.error TranslateError.recoveryError := by
    simp only [recoverStage]
    rw [if_neg hguard]
  simp [sendRawTransaction, hdec, hr]

/-- C4 counterexample to the claim as stated: for chain id 1 and raw v 37
the line-102 normalized value is 27, outside the range 0 or 1 that the
claim says must abort the translation, yet the translation proceeds to a
successful submission. -/
theorem C4_counterexample :
    vNormalized (exTxB.getD 6 []) exReqB.chainID = 27 ∧
    vNormalized (exTxB.getD 6 []) exReqB.chainID ≠ 0 ∧
    vNormalized (exTxB.getD 6 []) exReqB.chainID ≠ 1 ∧
    (sendRawTransaction exEnvOk exReqB).1 = Except.ok "h" := by
  refine ⟨by decide, by decide, by decide, by decide⟩

/-- Witness for C4 at a concrete input with v equal to 40 and chain id 1. -/
theorem C4_recovery_guard_witness :
    (sendRawTransaction exEnvOk exReqD).1 = Except.error TranslateError.recoveryError ∧
    (sendRawTransaction exEnvOk exReqD).2 = [] :=
  C4_recovery_guard exEnvOk exReqD exTxD "" (by decide) (by decide) (by decide) (by decide)

/-- C5, amended: the public key is recovered by the abstract secp256k1
recovery from the digest of the re-encoded payload, the decoded r and s
fields left-padded to 32 bytes, and the recovery id derived inside
ecrecover from the raw v and the chain id — which equals the line-102
normalized value minus 27, not that value itself; a failing recovery
surfaces as the recovery error with nothing submitted, and a successful
one puts the 0x04-prefixed point into the envelope sender key. -/
theorem C5_point_recovery (E : Env) (req : RawTransactionRequest)
    (tx : List (List Nat)) (recip : String)
    (hdec : decodeTx E.fromBytes req.data = Except.ok (tx, recip))
    (hguard : sigRecovery (tx.getD 6 []) req.chainID = 0 ∨
      sigRecovery (tx.getD 6 []) req.chainID = 1) :
    (E.recoverPoint (E.keccak (rlpEncodeList (resignFields tx req.chainID)))
        (sigRecovery (tx.getD 6 []) req.chainID).toNat
        (setLengthLeft (tx.getD 7 []) 32) (setLengthLeft (tx.getD 8 []) 32) = none →
      (sendRawTransaction E req).1 = Except.error TranslateError.recoveryError ∧
      sentEnvelopes (sendRawTransaction E req).2 = []) ∧
    (∀ pk, E.recoverPoint (E.keccak (rlpEncodeList (resignFields tx req.chainID)))
        (sigRecovery (tx.getD 6 []) req.chainID).toNat
        (setLengthLeft (tx.getD 7 []) 32) (setLengthLeft (tx.getD 8 []) 32) = some pk →
      ∀ env ∈ sentEnvelopes (sendRawTransaction E req).2,
        env.action.senderPubKey = 4 :: pk) := by
  constructor
  · intro hnone
    have hr : recoverStage E.keccak E.recoverPoint req.chainID tx =
        Except.error TranslateError.recoveryError := by
      simp only [recoverStage]
      rw [if_pos hguard, hnone]
    simp [sendRawTransaction, hdec, hr, sentEnvelopes]
  · intro pk hpk env henv
    have hr : recoverStage E.keccak E.recoverPoint req.chainID tx =
        Except.ok (4 :: pk,
          setLengthLeft (tx.getD 7 []) 32 ++ setLengthLeft (tx.getD 8 []) 32 ++
            toBufferNat (vNormalized (tx.getD 6 []) req.chainID).toNat) := by
      simp only [recoverStage]
      rw [if_pos hguard, hpk]
    by_cases hto : recip = ""
    · simp only [sendRawTransaction, hdec, hr, hto] at henv
      simp [sentEnvelopes] at henv
      subst henv
      simp [buildSendActionReq]
    · cases ha : E.getAccount recip with
      | none =>
        simp only [sendRawTransaction, hdec, hr, if_neg hto, ha] at henv
        simp [sentEnvelopes] at henv
      | some m =>
        simp only [sendRawTransaction, hdec, hr, if_neg hto, ha] at henv
        simp [sentEnvelopes] at henv
        subst henv
        cases m.isContract <;> simp [buildSendActionReq]

/-- C5 counterexample to the claim as stated: on a successful translation
with chain id 1 and raw v 37 the recovery id handed to point recovery is
0 (the environment only answers for recovery id 0), while the line-102
normalized value v minus (2 chainID + 8) is 27 — the recovery is not run
on the normalized value claimed by the specification. -/
theorem C5_counterexample :
    sigRecovery (exTxB.getD 6 []) exReqB.chainID = 0 ∧
    vNormalized (exTxB.getD 6 []) exReqB.chainID = 27 ∧
    sigRecovery (exTxB.getD 6 []) exReqB.chainID ≠
      vNormalized (exTxB.getD 6 []) exReqB.chainID ∧
    (sendRawTransaction exEnvRid0 exReqB).1 = Except.ok "h" := by
  refine ⟨by decide, by decide, by decide, by decide⟩

/-- Witness for C5 at a concrete input. -/
theorem C5_point_recovery_witness :
    (exEnvRid0.recoverPoint
        (exEnvRid0.keccak (rlpEncodeList (resignFields exTxB exReqB.chainID)))
        (sigRecovery (exTxB.getD 6 []) exReqB.chainID).toNat
        (setLengthLeft (exTxB.getD 7 []) 32) (setLengthLeft (exTxB.getD 8 []) 32) = none →
      (sendRawTransaction exEnvRid0 exReqB).1 = Except.error TranslateError.recoveryError ∧
      sentEnvelopes (sendRawTransaction exEnvRid0 exReqB).2 = []) ∧
    (∀ pk, exEnvRid0.recoverPoint
        (exEnvRid0.keccak (rlpEncodeList (resignFields exTxB exReqB.chainID)))
        (sigRecovery (exTxB.getD 6 []) exReqB.chainID).toNat
        (setLengthLeft (exTxB.getD 7 []) 32) (setLengthLeft (exTxB.getD 8 []) 32) = some pk →
      ∀ env ∈ sentEnvelopes (sendRawTransaction exEnvRid0 exReqB).2,
        env.action.senderPubKey = 4 :: pk) :=
  C5_point_recovery exEnvRid0 exReqB exTxB "" (by decide) (by decide)

/-- Every submitted envelope is the one assembled by buildSendActionReq from
the decoded fields, the recovered key and signature, and some
classification flag. -/
theorem sent_env_built (E : Env) (req : RawTransactionRequest)
    (tx : List (List Nat)) (recip : String) (pk sig : List Nat) (env : SendActionReq)
    (hdec : decodeTx E.fromBytes req.data = Except.ok (tx, recip))
    (hr : recoverStage E.keccak E.recoverPoint req.chainID tx = Except.ok (pk, sig))
    (henv : env ∈ sentEnvelopes (sendRawTransaction E req).2) :
    ∃ isC : Bool, env = buildSendActionReq (tx.getD 0 []) (tx.getD 1 []) (tx.getD 2 [])
      (tx.getD 4 []) recip (tx.getD 5 []) pk sig isC := by
  by_cases hto : recip = ""
  · subst hto
    simp only [sendRawTransaction, hdec, hr] at henv
    simp [sentEnvelopes] at henv
    exact ⟨true, by simpa using henv⟩
  · cases ha : E.getAccount recip with
    | none =>
      simp only [sendRawTransaction, hdec, hr, if_neg hto, ha] at henv
      simp [sentEnvelopes] at henv
    | some m =>
      simp only [sendRawTransaction, hdec, hr, if_neg hto, ha] at henv
      simp [sentEnvelopes] at henv
      exact ⟨m.isContract, by simpa using henv⟩

/-- C6, amended: on every successful recovery (nonzero chain id) the
envelope signature is exactly r left-padded to 32 bytes, s left-padded to
32 bytes, and one trailing byte equal to the line-102 normalized value —
which on every path that reaches the signature is 27 or 28, that is, the
Ethereum offset form. -/
theorem C6_signature_layout (E : Env) (req : RawTransactionRequest)
    (tx : List (List Nat)) (recip : String) (env : SendActionReq)
    (hdec : decodeTx E.fromBytes req.data = Except.ok (tx, recip))
    (hc : req.chainID ≠ 0)
    (henv : env ∈ sentEnvelopes (sendRawTransaction E req).2) :
    env.action.signature =
      setLengthLeft (tx.getD 7 []) 32 ++ setLengthLeft (tx.getD 8 []) 32 ++
        [(vNormalized (tx.getD 6 []) req.chainID).toNat] ∧
    env.action.signature.length = 65 ∧
    (vNormalized (tx.getD 6 []) req.chainID = 27 ∨
      vNormalized (tx.getD 6 []) req.chainID = 28) := by
  by_cases hguard : sigRecovery (tx.getD 6 []) req.chainID = 0 ∨
      sigRecovery (tx.getD 6 []) req.chainID = 1
  · cases hpoint : E.recoverPoint (E.keccak (rlpEncodeList (resignFields tx req.chainID)))
        (sigRecovery (tx.getD 6 []) req.chainID).toNat
        (setLengthLeft (tx.getD 7 []) 32) (setLengthLeft (tx.getD 8 []) 32) with
    | none =>
      have hr : recoverStage E.keccak E.recoverPoint req.chainID tx =
          Except.error TranslateError.recoveryError := by
        simp only [recoverStage]
        rw [if_pos hguard, hpoint]
      simp only [sendRawTransaction, hdec, hr] at henv
      simp [sentEnvelopes] at henv
    | some pk =>
      have hr : recoverStage E.keccak E.recoverPoint req.chainID tx =
          Except.ok (4 :: pk,
            setLengthLeft (tx.getD 7 []) 32 ++ setLengthLeft (tx.getD 8 []) 32 ++
              toBufferNat (vNormalized (tx.getD 6 []) req.chainID).toNat) := by
        simp only [recoverStage]
        rw [if_pos hguard, hpoint]
      have hv : vNormalized (tx.getD 6 []) req.chainID = 27 ∨
          vNormalized (tx.getD 6 []) req.chainID = 28 := by
        simp only [sigRecovery, if_neg hc] at hguard
        simp only [vNormalized]
        omega
      have hbyte : toBufferNat (vNormalized (tx.getD 6 []) req.chainID).toNat =
          [(vNormalized (tx.getD 6 []) req.chainID).toNat] := by
        rcases hv with h | h <;> rw [h] <;> decide
      obtain ⟨isC, rfl⟩ := sent_env_built E req tx recip _ _ env hdec hr henv
      refine ⟨?_, ?_, hv⟩
      · simp only [buildSendActionReq]
        rw [hbyte]
      · simp only [buildSendActionReq]
        rw [hbyte]
        simp [List.length_append, setLengthLeft_length]
  · have hr : recoverStage E.keccak E.recoverPoint req.chainID tx =
        Except.error TranslateError.recoveryError := by
      simp only [recoverStage]
      rw [if_neg hguard]
    simp only [sendRawTransaction, hdec, hr] at henv
    simp [sentEnvelopes] at henv

/-- C6 counterexample to the claim as stated: a successful translation for
chain id 1 and raw v 38 submits a signature whose trailing byte is 28 —
the Ethereum 27/28 offset form that the claim says the byte never takes. -/
theorem C6_counterexample :
    (sendRawTransaction exEnvOk exReqC).1 = Except.ok "h" ∧
    sentSignatures (sendRawTransaction exEnvOk exReqC).2 =
      [setLengthLeft [2] 32 ++ setLengthLeft [3] 32 ++ [28]] ∧
    vNormalized (exTxC.getD 6 []) exReqC.chainID = 28 := by
  refine ⟨by decide, by decide, by decide⟩

/-- Witness for C6 at a concrete input. -/
theorem C6_signature_layout_witness :
    exSentA.action.signature =
      setLengthLeft (exTxA.getD 7 []) 32 ++ setLengthLeft (exTxA.getD 8 []) 32 ++
        [(vNormalized (exTxA.getD 6 []) exReqA.chainID).toNat] ∧
    exSentA.action.signature.length = 65 ∧
    (vNormalized (exTxA.getD 6 []) exReqA.chainID = 27 ∨
      vNormalized (exTxA.getD 6 []) exReqA.chainID = 28) :=
  C6_signature_layout exEnvOk exReqA exTxA "io1rcpt" exSentA (by decide) (by decide)
    (by decide)

/-- C7, amended: for every flat 9-field tuple of byte strings (within the
RLP length bounds) and every nonzero target chain id, decoding the
encoding returns exactly the tuple, and the re-signing payload is the
first six fields followed by the minimally encoded chain id and two empty
byte strings, re-encoded with the same scheme — byte-identical to the
reference encoding of the substituted tuple.  For chain id 0 the source
appends the byte 0x00 instead of the minimal (empty) encoding. -/
theorem C7_resign_roundtrip (items : List (List Nat)) (c : Nat)
    (_h9 : items.length = 9)
    (hx : ∀ x ∈ items, x.length < 256 ^ 8)
    (hpay : ((items.map rlpEncodeBytes).flatten).length < 256 ^ 8)
    (hc : 0 < c) :
    rlpDecode (rlpEncodeList items) = some items ∧
    resignFields items c = items.take 6 ++ [beBytes c, [], []] ∧
    rlpEncodeList (resignFields items c) =
      rlpEncodeList (items.take 6 ++ [beBytes c, [], []]) := by
  have h2 : resignFields items c = items.take 6 ++ [beBytes c, [], []] := by
    have hz : unpadBuffer (toBufferNat 0) = [] := by decide
    have htb : toBufferNat c = beBytes c := by
      rw [toBufferNat, if_neg (by omega)]
    rw [resignFields, hz, htb]
  exact ⟨rlpDecode_encodeList items hx hpay, h2, by rw [h2]⟩

/-- C7 counterexample to the claim as stated: for target chain id 0 the
chain field appended to the re-signing payload is the byte 0x00, not the
minimal encoding of 0 (the empty byte string), so the re-encoded payload
differs from the reference encoding built with the minimal chain id. -/
theorem C7_counterexample :
    resignFields exTxB 0 = exTxB.take 6 ++ [[0], [], []] ∧
    beBytes 0 = [] ∧
    rlpEncodeList (resignFields exTxB 0) ≠
      rlpEncodeList (exTxB.take 6 ++ [beBytes 0, [], []]) := by
  refine ⟨by decide, by decide, by decide⟩

/-- Witness for C7 at a concrete 9-field tuple and chain id 1. -/
theorem C7_resign_roundtrip_witness :
    rlpDecode (rlpEncodeList exTxB) = some exTxB ∧
    resignFields exTxB 1 = exTxB.take 6 ++ [beBytes 1, [], []] ∧
    rlpEncodeList (resignFields exTxB 1) =
      rlpEncodeList (exTxB.take 6 ++ [beBytes 1, [], []]) :=
  C7_resign_roundtrip exTxB 1 (by decide) (by decide) (by decide) (by decide)

/-- C9, amended: a successful translation performs exactly one submission,
preceded by exactly one classification lookup when the decoded recipient
is non-empty and by no lookup at all when it is empty (contract
creation). -/
theorem C9_call_discipline (E : Env) (req : RawTransactionRequest)
    (tx : List (List Nat)) (recip : String) (out : String)
    (hdec : decodeTx E.fromBytes req.data = Except.ok (tx, recip))
    (hok : (sendRawTransaction E req).1 = Except.ok out) :
    (recip = "" → ∃ sreq, (sendRawTransaction E req).2 = [Event.send sreq]) ∧
    (recip ≠ "" → ∃ sreq, (sendRawTransaction E req).2 =
      [Event.lookup recip, Event.send sreq]) := by
  cases hr : recoverStage E.keccak E.recoverPoint req.chainID tx with
  | error e =>
    simp only [sendRawTransaction, hdec, hr] at hok
    simp at hok
  | ok pr =>
    obtain ⟨pk, sig⟩ := pr
    by_cases hto : recip = ""
    · subst hto
      refine ⟨fun _ => ⟨buildSendActionReq (tx.getD 0 []) (tx.getD 1 []) (tx.getD 2 [])
        (tx.getD 4 []) "" (tx.getD 5 []) pk sig true, ?_⟩, fun hne => absurd rfl hne⟩
      simp [sendRawTransaction, hdec, hr]
    · cases ha : E.getAccount recip with
      | none =>
        simp only [sendRawTransaction, hdec, hr, if_neg hto, ha] at hok
        simp at hok
      | some m =>
        simp only [sendRawTransaction, hdec, hr, if_neg hto, ha]
        exact ⟨fun h => absurd h hto, fun _ => ⟨_, rfl⟩⟩

/-- C9 counterexample to the claim as stated: a valid raw transaction with
an empty recipient field (contract creation) translates and submits
successfully with zero classification lookups, not exactly one. -/
theorem C9_counterexample :
    (sendRawTransaction exEnvOk exReqB).1 = Except.ok "h" ∧
    lookupCount (sendRawTransaction exEnvOk exReqB).2 = 0 ∧
    sentEnvelopes (sendRawTransaction exEnvOk exReqB).2 ≠ [] := by
  refine ⟨by decide, by decide, by decide⟩

/-- Witness for C9 at a concrete input with a recipient. -/
theorem C9_call_discipline_witness :
    ("io1rcpt" = "" → ∃ sreq, (sendRawTransaction exEnvOk exReqA).2 = [Event.send sreq]) ∧
    ("io1rcpt" ≠ "" → ∃ sreq, (sendRawTransaction exEnvOk exReqA).2 =
      [Event.lookup "io1rcpt", Event.send sreq]) :=
  C9_call_discipline exEnvOk exReqA exTxA "io1rcpt" "h" (by decide) (by decide)

/-- C10: the single chainID of the request is used simultaneously as the
legacy chain id in the line-102 v-offset subtraction, as the recovery
offset inside ecrecover, and (encoded) as the substituted chain field of
the re-signing payload; there is no separate legacy chain id parameter. -/
theorem C10_single_chain_param (E : Env) (req : RawTransactionRequest)
    (tx : List (List Nat)) (recip : String) (env : SendActionReq)
    (hdec : decodeTx E.fromBytes req.data = Except.ok (tx, recip))
    (hc : req.chainID ≠ 0)
    (henv : env ∈ sentEnvelopes (sendRawTransaction E req).2) :
    vNormalized (tx.getD 6 []) req.chainID =
      (beVal (tx.getD 6 []) : Int) - (2 * req.chainID + 8) ∧
    sigRecovery (tx.getD 6 []) req.chainID =
      (beVal (tx.getD 6 []) : Int) - (2 * req.chainID + 35) ∧
    (sigRecovery (tx.getD 6 []) req.chainID = 0 ∨
      sigRecovery (tx.getD 6 []) req.chainID = 1) ∧
    resignFields tx req.chainID = tx.take 6 ++ [toBufferNat req.chainID, [], []] ∧
    beVal (toBufferNat req.chainID) = req.chainID ∧
    env.action.signature =
      setLengthLeft (tx.getD 7 []) 32 ++ setLengthLeft (tx.getD 8 []) 32 ++
        toBufferNat (vNormalized (tx.getD 6 []) req.chainID).toNat := by
  have hz : unpadBuffer (toBufferNat 0) = [] := by decide
  by_cases hguard : sigRecovery (tx.getD 6 []) req.chainID = 0 ∨
      sigRecovery (tx.getD 6 []) req.chainID = 1
  · cases hpoint : E.recoverPoint (E.keccak (rlpEncodeList (resignFields tx req.chainID)))
        (sigRecovery (tx.getD 6 []) req.chainID).toNat
        (setLengthLeft (tx.getD 7 []) 32) (setLengthLeft (tx.getD 8 []) 32) with
    | none =>
      have hr : recoverStage E.keccak E.recoverPoint req.chainID tx =
          Except.error TranslateError.recoveryError := by
        simp only [recoverStage]
        rw [if_pos hguard, hpoint]
      simp only [sendRawTransaction, hdec, hr] at henv
      simp [sentEnvelopes] at henv
    | some pk =>
      have hr : recoverStage E.keccak E.recoverPoint req.chainID tx =
          Except.ok (4 :: pk,
            setLengthLeft (tx.getD 7 []) 32 ++ setLengthLeft (tx.getD 8 []) 32 ++
              toBufferNat (vNormalized (tx.getD 6 []) req.chainID).toNat) := by
        simp only [recoverStage]
        rw [if_pos hguard, hpoint]
      obtain ⟨isC, rfl⟩ := sent_env_built E req tx recip _ _ env hdec hr henv
      refine ⟨rfl, by rw [sigRecovery, if_neg hc], hguard,
        by rw [resignFields, hz], beVal_toBufferNat req.chainID, ?_⟩
      simp only [buildSendActionReq]
  · have hr : recoverStage E.keccak E.recoverPoint req.chainID tx =
        Except.error TranslateError.recoveryError := by
      simp only [recoverStage]
      rw [if_neg hguard]
    simp only [sendRawTransaction, hdec, hr] at henv
    simp [sentEnvelopes] at henv

/-- Witness for C10 at a concrete input. -/
theorem C10_single_chain_param_witness :
    vNormalized (exTxA.getD 6 []) exReqA.chainID =
      (beVal (exTxA.getD 6 []) : Int) - (2 * exReqA.chainID + 8) ∧
    sigRecovery (exTxA.getD 6 []) exReqA.chainID =
      (beVal (exTxA.getD 6 []) : Int) - (2 * exReqA.chainID + 35) ∧
    (sigRecovery (exTxA.getD 6 []) exReqA.chainID = 0 ∨
      sigRecovery (exTxA.getD 6 []) exReqA.chainID = 1) ∧
    resignFields exTxA exReqA.chainID =
      exTxA.take 6 ++ [toBufferNat exReqA.chainID, [], []] ∧
    beVal (toBufferNat exReqA.chainID) = exReqA.chainID ∧
    exSentA.action.signature =
      setLengthLeft (exTxA.getD 7 []) 32 ++ setLengthLeft (exTxA.getD 8 []) 32 ++
        toBufferNat (vNormalized (exTxA.getD 6 []) exReqA.chainID).toNat :=
  C10_single_chain_param exEnvOk exReqA exTxA "io1rcpt" exSentA (by decide) (by decide)
    (by decide)
